import Mathlib

/-!
# pwndrip: command-line routing and service lifecycle

A shallow embedding of `main.go` (subcommand scan, subcommand excision,
dispatch, `gatherInstallFlags`) and of `core/service.go` (`Service.Install`,
`InstallWithFlags`, `Remove`, `Start`, `Stop`, `Status`, `copyBinaries`).

The operating system (filesystem calls, the daemon adapter, `runtime.GOOS`,
the executable location, `filepath.Join`) is an injected capability record
`Sys σ` over an abstract system state `σ`.  Every filesystem call and every
daemon-adapter call the code makes is appended to a call trace, and every
`log.*` call to a separate log, so that "no call was made" is a statement
about the trace.
-/

namespace Pwndrip

/-! ## main.go: subcommand scan and excision -/

/-- The map `recognizedSubcommands` of main.go, as its lookup function
(a key that is absent from a Go map reads as `false`). -/
def recognizedSubcommands (arg : String) : Bool :=
  arg == "install" || arg == "remove" || arg == "start" || arg == "stop" || arg == "status"

/-- Step 1 of `main`: the loop `for i, arg := range os.Args[1:]`, started at
index `i`.  Returns `(subcommand, subcommandIndex)`; when the loop ends
without a match the initial values `""` and `-1` are returned. -/
def scanFrom : List String → Nat → String × Int
  | [], _ => ("", -1)
  | arg :: rest, i =>
    if recognizedSubcommands arg then (arg, (i : Int) + 1)
    else scanFrom rest (i + 1)

/-- Step 1 of `main` on the tokens `os.Args[1:]`. -/
def scanSubcommand (args : List String) : String × Int :=
  scanFrom args 0

/-- Step 3 of `main`: the loop that builds `newArgs`, started at index `i`
with the slice built so far. -/
def exciseFrom (subcommandIndex : Int) : List String → Nat → List String → List String
  | [], _, newArgs => newArgs
  | arg :: rest, i, newArgs =>
    if (i : Int) + 1 ≠ subcommandIndex then
      exciseFrom subcommandIndex rest (i + 1) (newArgs ++ [arg])
    else
      exciseFrom subcommandIndex rest (i + 1) newArgs

/-- Step 3 of `main`: the token list handed to flag parsing.  With a
subcommand found it is `newArgs[1:]`, where `newArgs` starts as
`[os.Args[0]]`; otherwise `flag.Parse()` parses `os.Args[1:]`. -/
def flagStream (prog : String) (args : List String) : List String :=
  let subcommandIndex := (scanSubcommand args).2
  if subcommandIndex ≠ -1 then
    (exciseFrom subcommandIndex args 0 [prog]).drop 1
  else
    args

/-- The scan-and-excise step of `main`: the subcommand found (`""` when
there is none) and the token list handed to flag parsing. -/
def scanAndExcise (prog : String) (args : List String) : String × List String :=
  ((scanSubcommand args).1, flagStream prog args)

/-- The function `gatherInstallFlags` of main.go. -/
def gatherInstallFlags (disableAutocert disableDNS debugLog : Bool) (cfgPath : String) :
    List String :=
  let args : List String := []
  let args := if cfgPath ≠ "" then args ++ ["-config", cfgPath] else args
  let args := if debugLog then args ++ ["-debug"] else args
  let args := if disableAutocert then args ++ ["-no-autocert"] else args
  let args := if disableDNS then args ++ ["-no-dns"] else args
  args

/-! ## core/service.go: the injected system -/

/-- The errors the daemon adapter returns.  The four sentinels of the daemon
package are constructors of their own; the code compares errors with `==`
(identity), which is constructor equality here: `other msg` is never a
sentinel, whatever its text. -/
inductive DaemonErr where
  | alreadyInstalled
  | notInstalled
  | alreadyRunning
  | alreadyStopped
  | other (msg : String)
  deriving DecidableEq, Repr

/-- Errors of the filesystem calls; `os.IsNotExist` holds of `notExist` only. -/
inductive FsErr where
  | notExist
  | other (msg : String)
  deriving DecidableEq, Repr

/-- The part of `os.FileInfo` the code reads. -/
structure FileInfo where
  isDir : Bool
  deriving DecidableEq, Repr

/-- A filesystem or daemon-adapter call made by the code. -/
inductive Call where
  | stat (path : String)
  | mkdir (path : String) (perm : Nat)
  | removeAll (path : String)
  | copy (src dst : String)
  | daemonInstall (path : String) (args : List String)
  | daemonRemove
  | daemonStart
  | daemonStop
  | daemonStatus
  deriving DecidableEq, Repr

/-- Levels of the `log` package the code uses. -/
inductive LogLevel where
  | error | info | success | warning
  deriving DecidableEq, Repr

/-- The system the service code runs against: `runtime.GOOS`, the executable
location (`utils.GetExecDir`, `os.Executable`), `filepath.Join`, the `os` and
`copy` calls and the `daemon.Daemon` methods, each a function of the system
state `σ`. -/
structure Sys (σ : Type) where
  goos : String
  execDir : String
  execPath : String
  join : String → String → String
  stat : String → σ → Except FsErr FileInfo
  mkdir : String → Nat → σ → Option FsErr × σ
  removeAll : String → σ → Option FsErr × σ
  copy : String → String → σ → Option FsErr × σ
  daemonInstall : String → List String → σ → Option DaemonErr × σ
  daemonRemove : σ → Option DaemonErr × σ
  daemonStart : σ → Option DaemonErr × σ
  daemonStop : σ → Option DaemonErr × σ
  daemonStatus : σ → Except DaemonErr String × σ

/-- The state the code runs in: the system state (filesystem and service
registry), the filesystem and daemon calls made so far, the log written so far. -/
structure World (σ : Type) where
  st : σ
  trace : List Call
  logs : List (LogLevel × String)

def INSTALL_DIR : String := "/usr/local/pwndrop"
def EXEC_NAME : String := "pwndrop"
def ADMIN_DIR : String := "admin"

/-- Text of an adapter error, as `%s` prints it. -/
def DaemonErr.text : DaemonErr → String
  | .alreadyInstalled => "Service has already been installed"
  | .notInstalled => "Service is not installed"
  | .alreadyRunning => "Service is already running"
  | .alreadyStopped => "Service has already been stopped"
  | .other msg => msg

section Calls
variable {σ : Type}

/-- A call of `log.Error`, `log.Info`, `log.Success` or `log.Warning`. -/
def World.log (w : World σ) (lvl : LogLevel) (msg : String) : World σ :=
  { w with logs := w.logs ++ [(lvl, msg)] }

/-- The call `os.Stat(path)`. -/
def osStat (sys : Sys σ) (path : String) (w : World σ) : Except FsErr FileInfo × World σ :=
  (sys.stat path w.st, { w with trace := w.trace ++ [Call.stat path] })

/-- The call `os.Mkdir(path, perm)`. -/
def osMkdir (sys : Sys σ) (path : String) (perm : Nat) (w : World σ) : Option FsErr × World σ :=
  let r := sys.mkdir path perm w.st
  (r.1, { w with st := r.2, trace := w.trace ++ [Call.mkdir path perm] })

/-- The call `os.RemoveAll(path)`. -/
def osRemoveAll (sys : Sys σ) (path : String) (w : World σ) : Option FsErr × World σ :=
  let r := sys.removeAll path w.st
  (r.1, { w with st := r.2, trace := w.trace ++ [Call.removeAll path] })

/-- The call `copy.Copy(src, dst)`. -/
def copyCopy (sys : Sys σ) (src dst : String) (w : World σ) : Option FsErr × World σ :=
  let r := sys.copy src dst w.st
  (r.1, { w with st := r.2, trace := w.trace ++ [Call.copy src dst] })

/-- The call `service.Daemon.Install(path, args...)`. -/
def daemonInstall (sys : Sys σ) (path : String) (args : List String) (w : World σ) :
    Option DaemonErr × World σ :=
  let r := sys.daemonInstall path args w.st
  (r.1, { w with st := r.2, trace := w.trace ++ [Call.daemonInstall path args] })

/-- The call `service.Daemon.Remove()`. -/
def daemonRemove (sys : Sys σ) (w : World σ) : Option DaemonErr × World σ :=
  let r := sys.daemonRemove w.st
  (r.1, { w with st := r.2, trace := w.trace ++ [Call.daemonRemove] })

/-- The call `service.Daemon.Start()`. -/
def daemonStart (sys : Sys σ) (w : World σ) : Option DaemonErr × World σ :=
  let r := sys.daemonStart w.st
  (r.1, { w with st := r.2, trace := w.trace ++ [Call.daemonStart] })

/-- The call `service.Daemon.Stop()`. -/
def daemonStop (sys : Sys σ) (w : World σ) : Option DaemonErr × World σ :=
  let r := sys.daemonStop w.st
  (r.1, { w with st := r.2, trace := w.trace ++ [Call.daemonStop] })

/-- The call `service.Daemon.Status()`. -/
def daemonStatus (sys : Sys σ) (w : World σ) : Except DaemonErr String × World σ :=
  let r := sys.daemonStatus w.st
  (r.1, { w with st := r.2, trace := w.trace ++ [Call.daemonStatus] })

end Calls

/-! ## core/service.go: the Service methods -/

section Service
variable {σ : Type}

/-- The test `os.IsNotExist(err)` on the error result of `os.Stat`. -/
def isNotExist : Except FsErr FileInfo → Bool
  | .error .notExist => true
  | _ => false

/-- The last part of `copyBinaries`: replace the admin directory at the
destination (stat, delete when present, copy). -/
def copyAdmin (sys : Sys σ) (adminSrc : String) (w : World σ) : Bool × World σ :=
  let adminDst := sys.join INSTALL_DIR ADMIN_DIR
  let (r, w) := osStat sys adminDst w
  let del : Option FsErr × World σ :=
    match r with
    | .ok _ => osRemoveAll sys adminDst w
    | .error _ => (none, w)
  match del with
  | (some _, w) => (false, w.log .error ("failed to delete admin panel at: " ++ adminDst))
  | (none, w) =>
    match copyCopy sys adminSrc adminDst w with
    | (some _, w) =>
      (false, w.log .error ("failed to copy '" ++ adminSrc ++ "' to: " ++ adminDst))
    | (none, w) => (true, w.log .success ("copied admin panel to: " ++ adminDst))

/-- The middle part of `copyBinaries`: copy the running executable to its
destination, then go on with the admin directory. -/
def copyExec (sys : Sys σ) (adminSrc : String) (w : World σ) : Bool × World σ :=
  let execPath := sys.execPath
  let execDst := sys.join INSTALL_DIR EXEC_NAME
  match copyCopy sys execPath execDst w with
  | (some _, w) =>
    (false, w.log .error ("failed to copy '" ++ execPath ++ "' to: " ++ execDst))
  | (none, w) =>
    copyAdmin sys adminSrc (w.log .success ("copied pwndrop executable to: " ++ execDst))

/-- The method `Service.copyBinaries`. -/
def copyBinaries (sys : Sys σ) (w : World σ) : Bool × World σ :=
  let execDir := sys.execDir
  let adminSrc := sys.join execDir ADMIN_DIR
  match osStat sys adminSrc w with
  | (.error _, w) =>
    (false, w.log .error ("can't find admin panel in current directory: " ++ adminSrc))
  | (.ok f, w) =>
    if !f.isDir then
      (false, w.log .error ("'" ++ adminSrc ++ "' is not a directory"))
    else
      let (r, w) := osStat sys INSTALL_DIR w
      if isNotExist r then
        match osMkdir sys INSTALL_DIR 0o700 w with
        | (some _, w) => (false, w.log .error ("failed to create directory: " ++ INSTALL_DIR))
        | (none, w) => copyExec sys adminSrc w
      else
        copyExec sys adminSrc w

/-- The method `Service.InstallWithFlags`. -/
def InstallWithFlags (sys : Sys σ) (flags : List String) (w : World σ) : Bool × World σ :=
  if sys.goos = "windows" then
    (false, w.log .error "daemons disabled on windows")
  else
    match copyBinaries sys w with
    | (false, w) => (false, w)
    | (true, w) =>
      let execDst := sys.join INSTALL_DIR EXEC_NAME
      let (err, w) := daemonInstall sys execDst flags w
      let done (w : World σ) : Bool × World σ :=
        if flags.length > 0 then
          (true, w.log .success
            ("successfully installed daemon with flags: [" ++ " ".intercalate flags ++ "]"))
        else
          (true, w.log .success "successfully installed daemon (no extra flags)")
      match err with
      | some e =>
        if e = DaemonErr.alreadyInstalled then
          done (w.log .info "service already installed")
        else
          (false, w.log .error ("failed to install daemon: " ++ e.text))
      | none => done w

/-- The method `Service.Install`: `InstallWithFlags(nil)`. -/
def Install (sys : Sys σ) (w : World σ) : Bool × World σ :=
  InstallWithFlags sys [] w

/-- The method `Service.Remove`. -/
def Remove (sys : Sys σ) (w : World σ) : Bool × World σ :=
  if sys.goos = "windows" then
    (false, w.log .error "daemons disabled on windows")
  else
    match daemonRemove sys w with
    | (some e, w) => (false, w.log .error ("failed to remove daemon: " ++ e.text))
    | (none, w) =>
      match osStat sys INSTALL_DIR w with
      | (.ok _, w) =>
        match osRemoveAll sys INSTALL_DIR w with
        | (some _, w) => (false, w.log .error ("failed to delete directory: " ++ INSTALL_DIR))
        | (none, w) =>
          (true, (w.log .success "deleted pwndrop directory").log .success
            "successfully removed daemon")
      | (.error _, w) =>
        (true, (w.log .warning ("directory not found: " ++ INSTALL_DIR)).log .success
          "successfully removed daemon")

/-- The method `Service.Start`. -/
def Start (sys : Sys σ) (w : World σ) : Bool × World σ :=
  if sys.goos = "windows" then
    (false, w.log .error "daemons disabled on windows")
  else
    match daemonStart sys w with
    | (some e, w) =>
      if e = DaemonErr.alreadyRunning then
        (true, (w.log .info "daemon already running").log .success "pwndrop is running")
      else
        (false, w.log .error ("failed to start daemon: " ++ e.text))
    | (none, w) => (true, w.log .success "pwndrop is running")

/-- The method `Service.Stop`. -/
def Stop (sys : Sys σ) (w : World σ) : Bool × World σ :=
  if sys.goos = "windows" then
    (false, w.log .error "daemons disabled on windows")
  else
    match daemonStop sys w with
    | (some e, w) =>
      if e = DaemonErr.alreadyStopped then
        (true, (w.log .info "daemon already stopped").log .success "pwndrop stopped")
      else
        (false, w.log .error ("failed to stop daemon: " ++ e.text))
    | (none, w) => (true, w.log .success "pwndrop stopped")

/-- The method `Service.Status`. -/
def Status (sys : Sys σ) (w : World σ) : Bool × World σ :=
  if sys.goos = "windows" then
    (false, w.log .error "daemons disabled on windows")
  else
    match daemonStatus sys w with
    | (.error e, w) => (false, w.log .error ("failed to get daemon status: " ++ e.text))
    | (.ok status, w) => (true, w.log .info ("pwndrop status: " ++ status))

end Service

/-! ## main.go: flag parsing and dispatch -/

/-- The five flag variables `main` defines, with their values after parsing. -/
structure Flags where
  cfgPath : String
  debugLog : Bool
  disableAutocert : Bool
  disableDNS : Bool
  showHelp : Bool
  deriving DecidableEq, Repr

/-- How `main` ends: `os.Exit(code)`; a return from `main` after `usage()`
(process exit code 0); or the hand-over to the normal run (config load,
database, server start), which is outside this development. -/
inductive Outcome where
  | exit (code : Nat)
  | help
  | run (flags : Flags)
  deriving DecidableEq, Repr

/-- The process exit code of an outcome that ends the process at once. -/
def Outcome.exitCode : Outcome → Option Nat
  | .exit code => some code
  | .help => some 0
  | .run _ => none

/-- The function `strconv.ParseBool` of the Go standard library, which the
flag package applies to the value of a boolean flag written `-name=value`. -/
def parseBool (s : String) : Option Bool :=
  if s ∈ ["1", "t", "T", "TRUE", "true", "True"] then some true
  else if s ∈ ["0", "f", "F", "FALSE", "false", "False"] then some false
  else none

/-- Splits a flag name at its first `=` that is not the first character:
the loop `for i := 1; i < len(name); i++` of `parseOne`. -/
def splitValue (name : List Char) : List Char × Option (List Char) :=
  match name with
  | [] => ([], none)
  | c :: cs =>
    if '=' ∈ cs then
      (c :: cs.takeWhile (fun x => x != '='), some ((cs.dropWhile (fun x => x != '=')).drop 1))
    else (c :: cs, none)

/-- What one round of `parseOne` does with the token at the head of the
argument list. -/
inductive ParseStep where
  | stop
  | fail (code : Nat)
  | next (flags : Flags)
  | needValue
  deriving DecidableEq, Repr

/-- Go standard library, `flag.FlagSet.parseOne` on the head token `s`, for
the five flags `main` defines: `stop` when `s` is not a flag or is `--`,
`fail` with the exit code of the `ExitOnError` policy (2 on a bad flag, 0 on
an undefined `-help`), `next` with the flag set, `needValue` when `s` is
`-config` without `=value`, whose value is the next token. -/
def parseOne (s : String) (acc : Flags) : ParseStep :=
  match s.toList with
  | '-' :: c :: cs =>
    if c = '-' ∧ cs = [] then .stop
    else
      let name := if c = '-' then cs else c :: cs
      match name with
      | [] => .fail 2
      | n0 :: _ =>
        if n0 = '-' ∨ n0 = '=' then .fail 2
        else
          let (nm, value) := splitValue name
          let setBool (set : Bool → Flags) : ParseStep :=
            match value with
            | none => .next (set true)
            | some v =>
              match parseBool (String.mk v) with
              | some b => .next (set b)
              | none => .fail 2
          if nm = "config".toList then
            match value with
            | some v => .next { acc with cfgPath := String.mk v }
            | none => .needValue
          else if nm = "debug".toList then setBool (fun b => { acc with debugLog := b })
          else if nm = "no-autocert".toList then
            setBool (fun b => { acc with disableAutocert := b })
          else if nm = "no-dns".toList then setBool (fun b => { acc with disableDNS := b })
          else if nm = "h".toList then setBool (fun b => { acc with showHelp := b })
          else if nm = "help".toList then .fail 0
          else .fail 2
  | _ => .stop

/-- Go standard library, `flag.FlagSet.Parse` with the `ExitOnError` policy
of `flag.CommandLine`: the loop over `parseOne`.  The result is the flag
values, or the exit code of the process. -/
def goFlagParse : List String → Flags → Except Nat Flags
  | [], acc => .ok acc
  | s :: rest, acc =>
    match parseOne s acc with
    | .stop => .ok acc
    | .fail code => .error code
    | .next acc2 => goFlagParse rest acc2
    | .needValue =>
      match rest with
      | [] => .error 2
      | v :: rest2 => goFlagParse rest2 { acc with cfgPath := v }

/-- The flag defaults of `main`: `""` and four times `false`. -/
def Flags.default : Flags :=
  { cfgPath := "", debugLog := false, disableAutocert := false, disableDNS := false,
    showHelp := false }

/-- The standard flag parser on the flags of `main`, from their defaults. -/
def stdParse (tokens : List String) : Except Nat Flags :=
  goFlagParse tokens Flags.default

section Main
variable {σ : Type}

/-- Step 5 of `main`: the `switch subcommand`.  `some` is the `os.Exit` of
the matching case, `none` is falling out of the switch. -/
def dispatch (sys : Sys σ) (subcommand : String) (flags : Flags) (w : World σ) :
    Option Nat × World σ :=
  let exitOf (r : Bool × World σ) : Option Nat × World σ :=
    if r.1 then (some 0, r.2) else (some 1, r.2)
  if subcommand = "install" then
    let installFlags :=
      gatherInstallFlags flags.disableAutocert flags.disableDNS flags.debugLog flags.cfgPath
    exitOf (InstallWithFlags sys installFlags w)
  else if subcommand = "remove" then exitOf (Remove sys w)
  else if subcommand = "start" then exitOf (Start sys w)
  else if subcommand = "stop" then exitOf (Stop sys w)
  else if subcommand = "status" then exitOf (Status sys w)
  else (none, w)

/-- The function `main`, up to the hand-over to the normal run.  `parse` is
the flag parser (`flag.CommandLine.Parse`, which exits the process on a
parse error), `daemonNew` the error of `daemon.New`, if any. -/
def main (sys : Sys σ) (parse : List String → Except Nat Flags) (daemonNew : Option String)
    (prog : String) (args : List String) (w : World σ) : Outcome × World σ :=
  let subcommand := (scanSubcommand args).1
  match parse (flagStream prog args) with
  | .error code => (Outcome.exit code, w)
  | .ok flags =>
    match daemonNew with
    | some err => (Outcome.exit 1, w.log .error ("daemon init: " ++ err))
    | none =>
      match dispatch sys subcommand flags w with
      | (some code, w) => (Outcome.exit code, w)
      | (none, w) =>
        if flags.showHelp then (Outcome.help, w)
        else (Outcome.run flags, w)

end Main

/-! ## Call traces -/

/-- Whether a call goes to the daemon adapter. -/
def Call.isDaemon : Call → Bool
  | .daemonInstall _ _ => true
  | .daemonRemove => true
  | .daemonStart => true
  | .daemonStop => true
  | .daemonStatus => true
  | _ => false

/-- The world `w2` comes from `w1` by filesystem calls and log lines only. -/
def FsOnly {σ : Type} (w1 w2 : World σ) : Prop :=
  ∃ ext, w2.trace = w1.trace ++ ext ∧ ∀ c ∈ ext, c.isDaemon = false

/-! ## A concrete system for evaluating the code on examples -/

/-- State of the example system: the paths that exist (with a directory
bit), and the registration the service manager holds. -/
structure SimState where
  files : List (String × Bool)
  installed : Bool
  running : Bool
  argv : List String
  deriving DecidableEq, Repr

/-- Whether `path` lies strictly below the directory `dir`. -/
def isBelow (dir path : String) : Bool :=
  (dir ++ "/").toList.isPrefixOf path.toList

/-- Example `os.Stat`: a path exists when it is listed. -/
def simStat (path : String) (s : SimState) : Except FsErr FileInfo :=
  match s.files.lookup path with
  | some d => .ok { isDir := d }
  | none => .error .notExist

/-- Example `os.Mkdir`: fails on an existing path. -/
def simMkdir (path : String) (_perm : Nat) (s : SimState) : Option FsErr × SimState :=
  match s.files.lookup path with
  | some _ => (some (.other "file exists"), s)
  | none => (none, { s with files := s.files ++ [(path, true)] })

/-- Example `os.RemoveAll`: deletes the path and everything below it. -/
def simRemoveAll (path : String) (s : SimState) : Option FsErr × SimState :=
  (none, { s with files := s.files.filter (fun e => !(e.1 == path || isBelow path e.1)) })

/-- Example `copy.Copy`: copies the source entry and everything below it. -/
def simCopy (src dst : String) (s : SimState) : Option FsErr × SimState :=
  match s.files.lookup src with
  | none => (some .notExist, s)
  | some d =>
    let kept := s.files.filter (fun e => !(e.1 == dst))
    let below := s.files.filterMap (fun e =>
      if isBelow src e.1 then some (dst ++ String.mk (e.1.toList.drop src.toList.length), e.2)
      else none)
    (none, { s with files := kept ++ [(dst, d)] ++ below })

/-- Example daemon `Install`: the `ErrAlreadyInstalled` sentinel on a
registered service, else the registration of the path and arguments. -/
def simDaemonInstall (path : String) (args : List String) (s : SimState) :
    Option DaemonErr × SimState :=
  if s.installed then (some .alreadyInstalled, s)
  else (none, { s with installed := true, argv := path :: args })

/-- Example daemon `Remove`: the `ErrNotInstalled` sentinel when nothing is registered. -/
def simDaemonRemove (s : SimState) : Option DaemonErr × SimState :=
  if s.installed then (none, { s with installed := false, running := false, argv := [] })
  else (some .notInstalled, s)

/-- Example daemon `Start`. -/
def simDaemonStart (s : SimState) : Option DaemonErr × SimState :=
  if !s.installed then (some .notInstalled, s)
  else if s.running then (some .alreadyRunning, s)
  else (none, { s with running := true })

/-- Example daemon `Stop`. -/
def simDaemonStop (s : SimState) : Option DaemonErr × SimState :=
  if !s.installed then (some .notInstalled, s)
  else if s.running then (none, { s with running := false })
  else (some .alreadyStopped, s)

/-- Example daemon `Status`. -/
def simDaemonStatus (s : SimState) : Except DaemonErr String × SimState :=
  if !s.installed then (.error .notInstalled, s)
  else if s.running then (.ok "Service is running...", s)
  else (.ok "Service is stopped", s)

/-- The example system on the platform `goos`, run from `/opt/pwndrop`. -/
def simSys (goos : String) : Sys SimState where
  goos := goos
  execDir := "/opt/pwndrop"
  execPath := "/opt/pwndrop/pwndrop"
  join := fun a b => a ++ "/" ++ b
  stat := simStat
  mkdir := simMkdir
  removeAll := simRemoveAll
  copy := simCopy
  daemonInstall := simDaemonInstall
  daemonRemove := simDaemonRemove
  daemonStart := simDaemonStart
  daemonStop := simDaemonStop
  daemonStatus := simDaemonStatus

/-- A world with the given system state, before any call and any log line. -/
def World.init {σ : Type} (st : σ) : World σ :=
  { st := st, trace := [], logs := [] }

/-- A fresh machine: the release unpacked in `/opt/pwndrop` (executable and
admin directory), nothing installed. -/
def freshState : SimState :=
  { files := [("/opt/pwndrop", true), ("/opt/pwndrop/pwndrop", false),
      ("/opt/pwndrop/admin", true), ("/opt/pwndrop/admin/index.html", false)],
    installed := false, running := false, argv := [] }

/-- A machine whose release directory has no admin directory. -/
def noAdminState : SimState :=
  { files := [("/opt/pwndrop", true), ("/opt/pwndrop/pwndrop", false)],
    installed := false, running := false, argv := [] }

/-- A machine with the service installed and running. -/
def runningState : SimState :=
  { files := [("/usr/local/pwndrop", true), ("/usr/local/pwndrop/pwndrop", false),
      ("/usr/local/pwndrop/admin", true)],
    installed := true, running := true, argv := ["/usr/local/pwndrop/pwndrop"] }

/-! ## Lemmas on the scan and the excision -/

theorem scanFrom_cons (a : String) (rest : List String) (i : Nat) :
    scanFrom (a :: rest) i =
      if recognizedSubcommands a then (a, (i : Int) + 1) else scanFrom rest (i + 1) := rfl

theorem exciseFrom_cons (idx : Int) (a : String) (rest : List String) (i : Nat)
    (acc : List String) :
    exciseFrom idx (a :: rest) i acc =
      if (i : Int) + 1 ≠ idx then exciseFrom idx rest (i + 1) (acc ++ [a])
      else exciseFrom idx rest (i + 1) acc := rfl

theorem scanFrom_none (l : List String) (i : Nat)
    (h : ∀ a ∈ l, recognizedSubcommands a = false) : scanFrom l i = ("", -1) := by
  induction l generalizing i with
  | nil => rfl
  | cons a l ih =>
    have ha : recognizedSubcommands a = false := h a (List.mem_cons_self a l)
    have hl : ∀ b ∈ l, recognizedSubcommands b = false :=
      fun b hb => h b (List.mem_cons_of_mem a hb)
    simp [scanFrom, ha, ih (i + 1) hl]

theorem scanFrom_first (pre post : List String) (s : String) (i : Nat)
    (hpre : ∀ a ∈ pre, recognizedSubcommands a = false)
    (hs : recognizedSubcommands s = true) :
    scanFrom (pre ++ s :: post) i = (s, (i : Int) + pre.length + 1) := by
  induction pre generalizing i with
  | nil => simp [scanFrom, hs]
  | cons a pre ih =>
    have ha : recognizedSubcommands a = false := hpre a (List.mem_cons_self a pre)
    have hl : ∀ b ∈ pre, recognizedSubcommands b = false :=
      fun b hb => hpre b (List.mem_cons_of_mem a hb)
    rw [List.cons_append, scanFrom_cons, ha, if_neg Bool.false_ne_true, ih (i + 1) hl]
    simp only [List.length_cons, Prod.mk.injEq, true_and]
    push_cast
    ring

/-- Past the recorded index the excision loop keeps every token. -/
theorem exciseFrom_past (idx : Int) (l : List String) (i : Nat) (acc : List String)
    (h : idx < (i : Int) + 1) : exciseFrom idx l i acc = acc ++ l := by
  induction l generalizing i acc with
  | nil => simp [exciseFrom]
  | cons a l ih =>
    have hne : (i : Int) + 1 ≠ idx := by omega
    have hnext : idx < ((i + 1 : Nat) : Int) + 1 := by push_cast; omega
    simp [exciseFrom, hne, ih (i + 1) (acc ++ [a]) hnext]

/-- The excision loop drops exactly the token at the recorded index. -/
theorem exciseFrom_at (pre post : List String) (s : String) (i : Nat) (acc : List String) :
    exciseFrom ((i : Int) + pre.length + 1) (pre ++ s :: post) i acc = acc ++ pre ++ post := by
  induction pre generalizing i acc with
  | nil =>
    have hpast : (i : Int) + 1 < ((i + 1 : Nat) : Int) + 1 := by push_cast; omega
    simp [exciseFrom, exciseFrom_past _ post (i + 1) acc hpast]
  | cons a pre ih =>
    have hne : (i : Int) + 1 ≠ (i : Int) + ((a :: pre).length : Nat) + 1 := by
      simp only [List.length_cons]; push_cast; omega
    have hidx : (i : Int) + ((a :: pre).length : Nat) + 1
        = ((i + 1 : Nat) : Int) + (pre.length : Nat) + 1 := by
      simp only [List.length_cons]; push_cast; ring
    rw [List.cons_append, exciseFrom_cons, if_pos hne, hidx, ih (i + 1) (acc ++ [a])]
    simp

/-- The scan-and-excise step on a list whose first recognized token is `s`. -/
theorem scanAndExcise_first (prog : String) (pre post : List String) (s : String)
    (hpre : ∀ a ∈ pre, recognizedSubcommands a = false)
    (hs : recognizedSubcommands s = true) :
    scanAndExcise prog (pre ++ s :: post) = (s, pre ++ post) := by
  have hscan := scanFrom_first pre post s 0 hpre hs
  have hne : ((0 : Nat) : Int) + (pre.length : Nat) + 1 ≠ -1 := by push_cast; omega
  simp only [scanAndExcise, flagStream, scanSubcommand, hscan, hne, ne_eq, not_false_eq_true,
    if_true]
  rw [exciseFrom_at pre post s 0 [prog]]
  simp

/-- The scan-and-excise step on a list without a recognized token. -/
theorem scanAndExcise_none (prog : String) (args : List String)
    (h : ∀ a ∈ args, recognizedSubcommands a = false) :
    scanAndExcise prog args = ("", args) := by
  simp [scanAndExcise, flagStream, scanSubcommand, scanFrom_none args 0 h]

theorem insertIdx_eq_take_drop (s : String) (fs : List String) (k : Nat) (hk : k ≤ fs.length) :
    fs.insertIdx k s = fs.take k ++ s :: fs.drop k := by
  induction fs generalizing k with
  | nil =>
    have : k = 0 := by simpa using hk
    subst this; simp
  | cons a fs ih =>
    cases k with
    | zero => simp
    | succ k =>
      have hk2 : k ≤ fs.length := by simpa using hk
      simp [List.insertIdx_succ_cons, ih k hk2]

theorem recognized_iff (s : String) :
    recognizedSubcommands s = true ↔ s ∈ ["install", "remove", "start", "stop", "status"] := by
  simp [recognizedSubcommands, or_assoc]

/-- A scan that reports the empty subcommand saw no recognized token. -/
theorem scanFrom_empty_name (l : List String) (i : Nat) (h : (scanFrom l i).1 = "") :
    ∀ a ∈ l, recognizedSubcommands a = false := by
  induction l generalizing i with
  | nil => simp
  | cons a l ih =>
    rw [scanFrom_cons] at h
    by_cases ha : recognizedSubcommands a = true
    · rw [if_pos ha] at h
      simp only at h
      subst h
      exact absurd ha (by decide)
    · rw [if_neg ha] at h
      intro b hb
      rcases List.mem_cons.mp hb with rfl | hb
      · simpa using ha
      · exact ih (i + 1) h b hb

/-! ## The command-line claims -/

/-- C2: flag-position invariance.  Inserting a recognized subcommand `s` at
any position `k ≤ length fs` into a token list `fs` without recognized
tokens makes the scan-and-excise step of `main` return the subcommand `s` and
the flag stream `fs`; the three orders of `-debug`, `-no-dns` and `install`
all give `install` and `[-debug, -no-dns]`. -/
theorem subcommand_position_invariance (prog : String) (fs : List String) (s : String)
    (k : Nat) (hfs : ∀ a ∈ fs, recognizedSubcommands a = false)
    (hs : s ∈ ["install", "remove", "start", "stop", "status"]) (hk : k ≤ fs.length) :
    scanAndExcise prog (fs.insertIdx k s) = (s, fs)
    ∧ scanAndExcise prog ["-debug", "install", "-no-dns"] = ("install", ["-debug", "-no-dns"])
    ∧ scanAndExcise prog ["install", "-debug", "-no-dns"] = ("install", ["-debug", "-no-dns"])
    ∧ scanAndExcise prog ["-debug", "-no-dns", "install"] = ("install", ["-debug", "-no-dns"]) := by
  have hrec : recognizedSubcommands s = true := (recognized_iff s).mpr hs
  refine ⟨?_, ?_, ?_, ?_⟩
  · rw [insertIdx_eq_take_drop s fs k hk]
    have htake : ∀ a ∈ fs.take k, recognizedSubcommands a = false :=
      fun a ha => hfs a (List.mem_of_mem_take ha)
    rw [scanAndExcise_first prog (fs.take k) (fs.drop k) s htake hrec, List.take_append_drop]
  · exact scanAndExcise_first prog ["-debug"] ["-no-dns"] "install" (by decide) (by decide)
  · exact scanAndExcise_first prog [] ["-debug", "-no-dns"] "install" (by decide) (by decide)
  · exact scanAndExcise_first prog ["-debug", "-no-dns"] [] "install" (by decide) (by decide)

theorem subcommand_position_invariance_witness :
    scanAndExcise "pwndrop" (["-debug", "-no-dns"].insertIdx 1 "stop") =
      ("stop", ["-debug", "-no-dns"]) :=
  (subcommand_position_invariance "pwndrop" ["-debug", "-no-dns"] "stop" 1
    (by decide) (by decide) (by decide)).1

/-- C3, as stated, fails: in `["-config", "install"]` the name `install`
occurs only as the value of `-config`, yet the scan reports the subcommand
`install` and hands `["-config"]` to flag parsing, not the full list. -/
theorem flag_value_misdetected :
    scanAndExcise "pwndrop" ["-config", "install"] = ("install", ["-config"])
    ∧ scanAndExcise "pwndrop" ["-config", "install"] ≠ ("", ["-config", "install"]) := by
  decide

/-- C3, amended: the scan looks at every raw token, flag values included.
For a token list `pre ++ ["-config", s] ++ post` with `s` recognized and no
recognized token in `pre`, the scan reports the subcommand `s` and hands
`pre ++ ["-config"] ++ post` to flag parsing; and the scan reports no
subcommand with the unchanged list exactly when no token of the list is a
recognized subcommand name. -/
theorem flag_value_scanned (prog : String) (pre post args : List String) (s : String) :
    ((∀ a ∈ pre, recognizedSubcommands a = false) → recognizedSubcommands s = true →
      scanAndExcise prog (pre ++ ["-config", s] ++ post) = (s, pre ++ ["-config"] ++ post))
    ∧ (scanAndExcise prog args = ("", args) ↔ ∀ a ∈ args, recognizedSubcommands a = false) := by
  constructor
  · intro hpre hs
    have hpre2 : ∀ a ∈ pre ++ ["-config"], recognizedSubcommands a = false := by
      intro a ha
      rcases List.mem_append.mp ha with h | h
      · exact hpre a h
      · have : a = "-config" := by simpa using h
        subst this; decide
    have := scanAndExcise_first prog (pre ++ ["-config"]) post s hpre2 hs
    simpa using this
  · constructor
    · intro h
      have h1 : (scanFrom args 0).1 = "" := by
        have := congrArg Prod.fst h
        simpa [scanAndExcise, scanSubcommand] using this
      exact scanFrom_empty_name args 0 h1
    · exact scanAndExcise_none prog args

theorem flag_value_scanned_witness :
    scanAndExcise "pwndrop" (["-debug"] ++ ["-config", "status"] ++ ["-no-dns"]) =
      ("status", ["-debug"] ++ ["-config"] ++ ["-no-dns"])
    ∧ scanAndExcise "pwndrop" ["-config", "x.ini", "-debug"] = ("", ["-config", "x.ini", "-debug"]) :=
  ⟨(flag_value_scanned "pwndrop" ["-debug"] ["-no-dns"] [] "status").1 (by decide) (by decide),
   (flag_value_scanned "pwndrop" [] [] ["-config", "x.ini", "-debug"] "").2.mpr (by decide)⟩

/-- C5: at most one subcommand is consumed, the leftmost.  On
`pre ++ [s] ++ post` with `s` recognized and no recognized token in `pre` the
scan-and-excise step returns `s` and `pre ++ post` (recognized tokens of
`post` stay where they are, nothing else is dropped or reordered); on a list
without a recognized token it returns no subcommand and the whole list. -/
theorem leftmost_subcommand_only (prog : String) (pre post args : List String) (s : String) :
    ((∀ a ∈ pre, recognizedSubcommands a = false) →
      s ∈ ["install", "remove", "start", "stop", "status"] →
      scanAndExcise prog (pre ++ [s] ++ post) = (s, pre ++ post))
    ∧ ((∀ a ∈ args, recognizedSubcommands a = false) → scanAndExcise prog args = ("", args)) := by
  constructor
  · intro hpre hs
    have := scanAndExcise_first prog pre post s hpre ((recognized_iff s).mpr hs)
    simpa using this
  · exact scanAndExcise_none prog args

theorem leftmost_subcommand_only_witness :
    scanAndExcise "pwndrop" (["-debug"] ++ ["install"] ++ ["remove", "-no-dns", "install"]) =
      ("install", ["-debug"] ++ ["remove", "-no-dns", "install"])
    ∧ scanAndExcise "pwndrop" ["-debug", "-config", "x.ini"] =
      ("", ["-debug", "-config", "x.ini"]) :=
  ⟨(leftmost_subcommand_only "pwndrop" ["-debug"] ["remove", "-no-dns", "install"] []
      "install").1 (by decide) (by decide),
   (leftmost_subcommand_only "pwndrop" [] [] ["-debug", "-config", "x.ini"] "").2 (by decide)⟩

/-! ## Lemmas on the call trace -/

section Trace
variable {σ : Type}

theorem FsOnly.refl (w : World σ) : FsOnly w w := ⟨[], by simp, by simp⟩

theorem FsOnly.log {w1 w2 : World σ} (h : FsOnly w1 w2) (lvl : LogLevel) (msg : String) :
    FsOnly w1 (w2.log lvl msg) := h

theorem FsOnly.step {w1 w2 w3 : World σ} (h : FsOnly w1 w2) (c : Call)
    (hc : c.isDaemon = false) (h3 : w3.trace = w2.trace ++ [c]) : FsOnly w1 w3 := by
  obtain ⟨ext, he, hall⟩ := h
  refine ⟨ext ++ [c], by rw [h3, he, List.append_assoc], ?_⟩
  intro d hd
  rcases List.mem_append.mp hd with hd | hd
  · exact hall d hd
  · have : d = c := by simpa using hd
    rw [this]; exact hc

theorem FsOnly.stat {w1 w2 : World σ} (h : FsOnly w1 w2) (sys : Sys σ) (p : String) :
    FsOnly w1 (osStat sys p w2).2 := h.step (Call.stat p) rfl rfl

theorem FsOnly.mkdir {w1 w2 : World σ} (h : FsOnly w1 w2) (sys : Sys σ) (p : String) (m : Nat) :
    FsOnly w1 (osMkdir sys p m w2).2 := h.step (Call.mkdir p m) rfl rfl

theorem FsOnly.removeAll {w1 w2 : World σ} (h : FsOnly w1 w2) (sys : Sys σ) (p : String) :
    FsOnly w1 (osRemoveAll sys p w2).2 := h.step (Call.removeAll p) rfl rfl

theorem FsOnly.copy {w1 w2 : World σ} (h : FsOnly w1 w2) (sys : Sys σ) (a b : String) :
    FsOnly w1 (copyCopy sys a b w2).2 := h.step (Call.copy a b) rfl rfl

theorem copyAdmin_fsOnly (sys : Sys σ) (adminSrc : String) {w1 w2 : World σ}
    (h : FsOnly w1 w2) : FsOnly w1 (copyAdmin sys adminSrc w2).2 := by
  unfold copyAdmin
  dsimp only
  have hs := h.stat sys (sys.join INSTALL_DIR ADMIN_DIR)
  generalize osStat sys (sys.join INSTALL_DIR ADMIN_DIR) w2 = x at hs ⊢
  obtain ⟨r, w3⟩ := x
  have hr := hs.removeAll sys (sys.join INSTALL_DIR ADMIN_DIR)
  have hc3 := hs.copy sys adminSrc (sys.join INSTALL_DIR ADMIN_DIR)
  cases r with
  | ok f =>
    simp only at hr ⊢
    generalize osRemoveAll sys (sys.join INSTALL_DIR ADMIN_DIR) w3 = y at hr ⊢
    obtain ⟨e, w4⟩ := y
    cases e with
    | some e => exact hr.log _ _
    | none =>
      have hc := hr.copy sys adminSrc (sys.join INSTALL_DIR ADMIN_DIR)
      simp only at hc ⊢
      generalize copyCopy sys adminSrc (sys.join INSTALL_DIR ADMIN_DIR) w4 = z at hc ⊢
      obtain ⟨e2, w5⟩ := z
      cases e2 <;> exact hc.log _ _
  | error e =>
    simp only at hc3 ⊢
    generalize copyCopy sys adminSrc (sys.join INSTALL_DIR ADMIN_DIR) w3 = z at hc3 ⊢
    obtain ⟨e2, w5⟩ := z
    cases e2 <;> exact hc3.log _ _

theorem copyExec_fsOnly (sys : Sys σ) (adminSrc : String) {w1 w2 : World σ}
    (h : FsOnly w1 w2) : FsOnly w1 (copyExec sys adminSrc w2).2 := by
  unfold copyExec
  dsimp only
  have hc := h.copy sys sys.execPath (sys.join INSTALL_DIR EXEC_NAME)
  simp only at hc ⊢
  generalize copyCopy sys sys.execPath (sys.join INSTALL_DIR EXEC_NAME) w2 = z at hc ⊢
  obtain ⟨e, w3⟩ := z
  cases e with
  | some e => exact hc.log _ _
  | none => exact copyAdmin_fsOnly sys adminSrc (hc.log _ _)

theorem copyBinaries_fsOnly (sys : Sys σ) (w : World σ) :
    FsOnly w (copyBinaries sys w).2 := by
  unfold copyBinaries
  dsimp only
  have hs := (FsOnly.refl w).stat sys (sys.join sys.execDir ADMIN_DIR)
  simp only at hs ⊢
  generalize osStat sys (sys.join sys.execDir ADMIN_DIR) w = x at hs ⊢
  obtain ⟨r, w2⟩ := x
  cases r with
  | error e => exact hs.log _ _
  | ok f =>
    simp only at hs ⊢
    by_cases hd : f.isDir = true
    · have hs2 := hs.stat sys INSTALL_DIR
      simp only [hd, Bool.not_true, Bool.false_eq_true, if_false]
      generalize osStat sys INSTALL_DIR w2 = y at hs2 ⊢
      obtain ⟨r2, w3⟩ := y
      simp only at hs2 ⊢
      by_cases hne : isNotExist r2 = true
      · have hm := hs2.mkdir sys INSTALL_DIR 0o700
        simp only [hne, if_true]
        generalize osMkdir sys INSTALL_DIR 0o700 w3 = z at hm ⊢
        obtain ⟨e, w4⟩ := z
        cases e with
        | some e => exact hm.log _ _
        | none => exact copyExec_fsOnly sys _ hm
      · simp only [hne, if_false]
        exact copyExec_fsOnly sys _ hs2
    · have hd2 : f.isDir = false := by simpa using hd
      simp only [hd2, Bool.not_false, if_true]
      exact hs.log _ _

end Trace

/-! ## The service claims -/

section ServiceClaims
variable {σ : Type}

/-- C6: install outcome.  `InstallWithFlags` returns true exactly when the
platform is not windows, `copyBinaries` succeeded and the adapter's Install
returned no error or the already-installed sentinel (so every other
registration error gives false); and `Install()` is `InstallWithFlags` on
the empty flag list. -/
theorem install_outcome (sys : Sys σ) (flags : List String) (w : World σ) :
    ((InstallWithFlags sys flags w).1 = true ↔
      sys.goos ≠ "windows" ∧ (copyBinaries sys w).1 = true ∧
        ((sys.daemonInstall (sys.join INSTALL_DIR EXEC_NAME) flags (copyBinaries sys w).2.st).1
            = none ∨
          (sys.daemonInstall (sys.join INSTALL_DIR EXEC_NAME) flags (copyBinaries sys w).2.st).1
            = some DaemonErr.alreadyInstalled))
    ∧ Install sys w = InstallWithFlags sys [] w := by
  refine ⟨?_, rfl⟩
  unfold InstallWithFlags
  dsimp only
  by_cases hw : sys.goos = "windows"
  · simp [hw]
  · simp only [hw, if_false, ne_eq, not_false_eq_true, true_and]
    generalize copyBinaries sys w = x
    obtain ⟨b, w2⟩ := x
    cases b with
    | false => simp
    | true =>
      simp only [daemonInstall, true_and]
      generalize (sys.daemonInstall (sys.join INSTALL_DIR EXEC_NAME) flags w2.st).1 = e
      cases e with
      | none => by_cases hl : flags.length > 0 <;> simp [hl]
      | some e =>
        by_cases he : e = DaemonErr.alreadyInstalled
        · by_cases hl : flags.length > 0 <;> simp [he, hl]
        · simp [he]

/-- C7: unsupported platform.  On windows each of `InstallWithFlags` (for
any flags), `Remove`, `Start`, `Stop` and `Status` returns false at once, in
a world that differs from the initial one by one error log line only: the
system state (filesystem and service registry) and the call trace are
unchanged, so no filesystem call and no daemon-adapter call was made. -/
theorem unsupported_platform_no_effect (sys : Sys σ) (flags : List String) (w : World σ)
    (h : sys.goos = "windows") :
    InstallWithFlags sys flags w = (false, w.log .error "daemons disabled on windows")
    ∧ Remove sys w = (false, w.log .error "daemons disabled on windows")
    ∧ Start sys w = (false, w.log .error "daemons disabled on windows")
    ∧ Stop sys w = (false, w.log .error "daemons disabled on windows")
    ∧ Status sys w = (false, w.log .error "daemons disabled on windows")
    ∧ (w.log .error "daemons disabled on windows").st = w.st
    ∧ (w.log .error "daemons disabled on windows").trace = w.trace := by
  simp [InstallWithFlags, Remove, Start, Stop, Status, h, World.log]

theorem unsupported_platform_no_effect_witness :
    (InstallWithFlags (simSys "windows") ["-debug"] (World.init freshState)).1 = false
    ∧ (InstallWithFlags (simSys "windows") ["-debug"] (World.init freshState)).2.st = freshState
    ∧ (InstallWithFlags (simSys "windows") ["-debug"] (World.init freshState)).2.trace = []
    ∧ (Remove (simSys "windows") (World.init runningState)).1 = false
    ∧ (Remove (simSys "windows") (World.init runningState)).2.st = runningState
    ∧ (Remove (simSys "windows") (World.init runningState)).2.trace = [] := by
  have h1 := unsupported_platform_no_effect (simSys "windows") ["-debug"]
    (World.init freshState) rfl
  have h2 := unsupported_platform_no_effect (simSys "windows") []
    (World.init runningState) rfl
  rw [h1.1, h2.2.1]
  exact ⟨rfl, rfl, rfl, rfl, rfl, rfl⟩

/-- C9: Start and Stop.  On a platform other than windows `Start` returns
true exactly when the adapter's Start returned no error or the
already-running sentinel, and `Stop` returns true exactly when the adapter's
Stop returned no error or the already-stopped sentinel; any other adapter
error gives false. -/
theorem start_stop_outcome (sys : Sys σ) (w : World σ) (h : sys.goos ≠ "windows") :
    ((Start sys w).1 = true ↔
      (sys.daemonStart w.st).1 = none ∨ (sys.daemonStart w.st).1 = some DaemonErr.alreadyRunning)
    ∧ ((Stop sys w).1 = true ↔
      (sys.daemonStop w.st).1 = none ∨ (sys.daemonStop w.st).1 = some DaemonErr.alreadyStopped)
    := by
  constructor
  · unfold Start
    simp only [h, if_false, daemonStart]
    generalize (sys.daemonStart w.st).1 = e
    cases e with
    | none => simp
    | some e => by_cases he : e = DaemonErr.alreadyRunning <;> simp [he]
  · unfold Stop
    simp only [h, if_false, daemonStop]
    generalize (sys.daemonStop w.st).1 = e
    cases e with
    | none => simp
    | some e => by_cases he : e = DaemonErr.alreadyStopped <;> simp [he]

theorem start_stop_outcome_witness :
    (Start (simSys "linux") (World.init runningState)).1 = true
    ∧ (Stop (simSys "linux") (World.init freshState)).1 = false :=
  ⟨(start_stop_outcome (simSys "linux") (World.init runningState) (by decide)).1.mpr
      (Or.inr (by decide)),
   Bool.eq_false_iff.mpr (fun h =>
      absurd ((start_stop_outcome (simSys "linux") (World.init freshState) (by decide)).2.mp h)
        (by decide))⟩

/-- C8: deployment precondition.  On a platform other than windows, when the
stat of the admin source directory fails or reports a non-directory,
`copyBinaries` returns false having made that one stat call only (the system
state is unchanged: nothing created, copied or deleted), and
`InstallWithFlags` returns false with the same single stat call in its trace,
so the adapter's Install is never called. -/
theorem deployment_precondition (sys : Sys σ) (flags : List String) (w : World σ)
    (hsup : sys.goos ≠ "windows")
    (hsrc : (∃ e, sys.stat (sys.join sys.execDir ADMIN_DIR) w.st = .error e) ∨
      sys.stat (sys.join sys.execDir ADMIN_DIR) w.st = .ok { isDir := false }) :
    (copyBinaries sys w).1 = false
    ∧ (copyBinaries sys w).2.st = w.st
    ∧ (copyBinaries sys w).2.trace = w.trace ++ [Call.stat (sys.join sys.execDir ADMIN_DIR)]
    ∧ (InstallWithFlags sys flags w).1 = false
    ∧ (InstallWithFlags sys flags w).2.st = w.st
    ∧ (InstallWithFlags sys flags w).2.trace =
        w.trace ++ [Call.stat (sys.join sys.execDir ADMIN_DIR)]
    ∧ (∀ p v, Call.daemonInstall p v ∉
        (InstallWithFlags sys flags w).2.trace.drop w.trace.length) := by
  have hcopy : (copyBinaries sys w).1 = false ∧ (copyBinaries sys w).2.st = w.st ∧
      (copyBinaries sys w).2.trace = w.trace ++ [Call.stat (sys.join sys.execDir ADMIN_DIR)] := by
    unfold copyBinaries
    rcases hsrc with ⟨e, he⟩ | hf
    · simp [osStat, he, World.log]
    · simp [osStat, hf, World.log]
  have hinst : InstallWithFlags sys flags w = (false, (copyBinaries sys w).2) := by
    unfold InstallWithFlags
    simp only [hsup, if_false]
    generalize copyBinaries sys w = x at hcopy ⊢
    obtain ⟨b, w2⟩ := x
    simp only at hcopy
    rw [hcopy.1]
  refine ⟨hcopy.1, hcopy.2.1, hcopy.2.2, ?_, ?_, ?_, ?_⟩
  · rw [hinst]
  · rw [hinst]; exact hcopy.2.1
  · rw [hinst]; exact hcopy.2.2
  · intro p v
    rw [hinst]
    simp only [hcopy.2.2, List.drop_left]
    simp

theorem deployment_precondition_witness :
    (InstallWithFlags (simSys "linux") ["-debug"] (World.init noAdminState)).1 = false
    ∧ (InstallWithFlags (simSys "linux") ["-debug"] (World.init noAdminState)).2.st = noAdminState
    ∧ (InstallWithFlags (simSys "linux") ["-debug"] (World.init noAdminState)).2.trace =
        [Call.stat "/opt/pwndrop/admin"] :=
  have h := deployment_precondition (simSys "linux") ["-debug"] (World.init noAdminState)
    (by decide) (Or.inl ⟨FsErr.notExist, rfl⟩)
  ⟨h.2.2.2.1, h.2.2.2.2.1, h.2.2.2.2.2.1⟩

/-- The outcome of `main` when the scan finds `install`, flag parsing
succeeds and the daemon instance is created. -/
theorem main_install (sys : Sys σ) (parse : List String → Except Nat Flags) (prog : String)
    (args : List String) (flags : Flags) (w : World σ)
    (hsub : (scanSubcommand args).1 = "install")
    (hparse : parse (flagStream prog args) = .ok flags) :
    (main sys parse none prog args w).2 =
      (InstallWithFlags sys (gatherInstallFlags flags.disableAutocert flags.disableDNS
        flags.debugLog flags.cfgPath) w).2 := by
  unfold main dispatch
  simp only [hsub, hparse, if_true]
  generalize InstallWithFlags sys (gatherInstallFlags flags.disableAutocert flags.disableDNS
    flags.debugLog flags.cfgPath) w = r
  obtain ⟨b, w2⟩ := r
  cases b <;> rfl

/-- The trace of `InstallWithFlags`: filesystem calls of `copyBinaries`,
then at most the one adapter call. -/
theorem InstallWithFlags_trace (sys : Sys σ) (flags : List String) (w : World σ) :
    (InstallWithFlags sys flags w).2.trace = (copyBinaries sys w).2.trace ++
        [Call.daemonInstall (sys.join INSTALL_DIR EXEC_NAME) flags]
    ∨ (InstallWithFlags sys flags w).2.trace = (copyBinaries sys w).2.trace
    ∨ (InstallWithFlags sys flags w).2.trace = w.trace := by
  unfold InstallWithFlags
  dsimp only
  by_cases hw : sys.goos = "windows"
  · simp [hw, World.log]
  · simp only [hw, if_false]
    generalize copyBinaries sys w = x
    obtain ⟨b, w2⟩ := x
    cases b with
    | false => simp
    | true =>
      left
      simp only [daemonInstall]
      generalize (sys.daemonInstall (sys.join INSTALL_DIR EXEC_NAME) flags w2.st).1 = e
      cases e with
      | none => by_cases hl : flags.length > 0 <;> simp [hl, World.log]
      | some e =>
        by_cases he : e = DaemonErr.alreadyInstalled
        · by_cases hl : flags.length > 0 <;> simp [he, hl, World.log]
        · simp [he, World.log]

/-- C1: the forwarded flags.  `gatherInstallFlags` is the concatenation, in
this order, of `-config cfgPath` (when `cfgPath` is not empty), `-debug`,
`-no-autocert` and `-no-dns` (each when set); for `disableAutocert = true`,
`disableDNS = false`, `debugLog = true`, `cfgPath = "/etc/x.ini"` it is
`["-config", "/etc/x.ini", "-debug", "-no-autocert"]`.  When `main` runs the
install subcommand, every call of the adapter's Install it makes is for the
deployed executable with exactly that vector built from the parsed flags, and
on a supported platform with a successful deployment that call is made, right
after the calls of `copyBinaries`. -/
theorem install_flags_vector (sys : Sys σ) (parse : List String → Except Nat Flags)
    (daemonNew : Option String) (prog : String) (args : List String) (flags : Flags)
    (w : World σ) (disableAutocert disableDNS debugLog : Bool) (cfgPath : String) :
    gatherInstallFlags disableAutocert disableDNS debugLog cfgPath =
      (if cfgPath ≠ "" then ["-config", cfgPath] else [])
        ++ (if debugLog then ["-debug"] else [])
        ++ (if disableAutocert then ["-no-autocert"] else [])
        ++ (if disableDNS then ["-no-dns"] else [])
    ∧ gatherInstallFlags true false true "/etc/x.ini" =
      ["-config", "/etc/x.ini", "-debug", "-no-autocert"]
    ∧ ((scanSubcommand args).1 = "install" → parse (flagStream prog args) = .ok flags →
        ∀ p v, Call.daemonInstall p v ∈
            (main sys parse daemonNew prog args w).2.trace.drop w.trace.length →
          p = sys.join INSTALL_DIR EXEC_NAME ∧
          v = gatherInstallFlags flags.disableAutocert flags.disableDNS flags.debugLog
            flags.cfgPath)
    ∧ ((scanSubcommand args).1 = "install" → parse (flagStream prog args) = .ok flags →
        sys.goos ≠ "windows" → (copyBinaries sys w).1 = true →
        (main sys parse none prog args w).2.trace =
          (copyBinaries sys w).2.trace ++
            [Call.daemonInstall (sys.join INSTALL_DIR EXEC_NAME)
              (gatherInstallFlags flags.disableAutocert flags.disableDNS flags.debugLog
                flags.cfgPath)]) := by
  refine ⟨?_, by decide, ?_, ?_⟩
  · unfold gatherInstallFlags
    by_cases hc : cfgPath = "" <;> cases debugLog <;> cases disableAutocert <;>
      cases disableDNS <;> simp [hc]
  · intro hsub hparse p v hmem
    cases daemonNew with
    | some err =>
      have : (main sys parse (some err) prog args w).2.trace = w.trace := by
        unfold main
        simp [hparse, World.log]
      rw [this] at hmem
      simp at hmem
    | none =>
      rw [main_install sys parse prog args flags w hsub hparse] at hmem
      obtain ⟨ext, hext, hfs⟩ := copyBinaries_fsOnly sys w
      rcases InstallWithFlags_trace sys (gatherInstallFlags flags.disableAutocert
        flags.disableDNS flags.debugLog flags.cfgPath) w with h | h | h
      · rw [h, hext, List.append_assoc, List.drop_left] at hmem
        rcases List.mem_append.mp hmem with hm | hm
        · have := hfs _ hm
          simp [Call.isDaemon] at this
        · have heq : Call.daemonInstall p v = Call.daemonInstall (sys.join INSTALL_DIR EXEC_NAME)
              (gatherInstallFlags flags.disableAutocert flags.disableDNS flags.debugLog
                flags.cfgPath) := by simpa using hm
          injection heq with h1 h2
          exact ⟨h1, h2⟩
      · rw [h, hext, List.drop_left] at hmem
        have := hfs _ hmem
        simp [Call.isDaemon] at this
      · rw [h] at hmem
        simp at hmem
  · intro hsub hparse hsup hcopy
    rw [main_install sys parse prog args flags w hsub hparse]
    unfold InstallWithFlags
    dsimp only
    simp only [hsup, if_false]
    generalize copyBinaries sys w = x at hcopy ⊢
    obtain ⟨b, w2⟩ := x
    simp only at hcopy
    subst hcopy
    simp only [daemonInstall]
    generalize (sys.daemonInstall (sys.join INSTALL_DIR EXEC_NAME)
      (gatherInstallFlags flags.disableAutocert flags.disableDNS flags.debugLog
        flags.cfgPath) w2.st).1 = e
    generalize gatherInstallFlags flags.disableAutocert flags.disableDNS flags.debugLog
        flags.cfgPath = fl
    cases e with
    | none => by_cases hl : fl.length > 0 <;> simp [hl, World.log]
    | some e =>
      by_cases he : e = DaemonErr.alreadyInstalled
      · by_cases hl : fl.length > 0 <;> simp [he, hl, World.log]
      · simp [he, World.log]

theorem install_flags_vector_witness :
    (main (simSys "linux") stdParse none "pwndrop"
        ["-no-autocert", "install", "-debug", "-config", "/etc/x.ini"]
        (World.init freshState)).2.trace =
      (copyBinaries (simSys "linux") (World.init freshState)).2.trace ++
        [Call.daemonInstall "/usr/local/pwndrop/pwndrop"
          ["-config", "/etc/x.ini", "-debug", "-no-autocert"]] :=
  (install_flags_vector (simSys "linux") stdParse none "pwndrop"
    ["-no-autocert", "install", "-debug", "-config", "/etc/x.ini"]
    { cfgPath := "/etc/x.ini", debugLog := true, disableAutocert := true, disableDNS := false,
      showHelp := false }
    (World.init freshState) true false true "/etc/x.ini").2.2.2
    (by decide) rfl (by decide) (by decide)

/-- C4: Remove on an already-removed installation.  On linux, with nothing
registered (the adapter's Remove returns its not-installed sentinel) and no
installation directory, `Service.Remove` returns false, where the claim says
true: the sentinel is logged as a failure after the one adapter call, and the
directory is never looked at. -/
theorem remove_not_installed_fails :
    ((simSys "linux").daemonRemove freshState).1 = some DaemonErr.notInstalled
    ∧ (simSys "linux").stat INSTALL_DIR freshState = .error FsErr.notExist
    ∧ (Remove (simSys "linux") (World.init freshState)).1 = false
    ∧ (Remove (simSys "linux") (World.init freshState)).2.trace = [Call.daemonRemove]
    ∧ (Remove (simSys "linux") (World.init freshState)).2.logs =
        [(LogLevel.error, "failed to remove daemon: Service is not installed")] := by
  refine ⟨by decide, rfl, by decide, by decide, by decide⟩

/-- C10: the help flag next to a subcommand.  On `install -h` the parsed
flags have `-h` set, yet `main` runs the install (deployment calls and the
adapter's Install are in the trace) and exits through the install case
instead of printing the usage; on `-h remove` with nothing installed it runs
Remove and exits with code 1.  Only without a subcommand does `-h` give the
usage text. -/
theorem help_ignored_with_subcommand :
    stdParse (flagStream "pwndrop" ["install", "-h"]) =
      .ok { cfgPath := "", debugLog := false, disableAutocert := false, disableDNS := false,
            showHelp := true }
    ∧ (main (simSys "linux") stdParse none "pwndrop" ["install", "-h"]
        (World.init freshState)).1 = Outcome.exit 0
    ∧ (main (simSys "linux") stdParse none "pwndrop" ["install", "-h"]
        (World.init freshState)).2.trace =
      [Call.stat "/opt/pwndrop/admin", Call.stat "/usr/local/pwndrop",
       Call.mkdir "/usr/local/pwndrop" 448,
       Call.copy "/opt/pwndrop/pwndrop" "/usr/local/pwndrop/pwndrop",
       Call.stat "/usr/local/pwndrop/admin",
       Call.copy "/opt/pwndrop/admin" "/usr/local/pwndrop/admin",
       Call.daemonInstall "/usr/local/pwndrop/pwndrop" []]
    ∧ (main (simSys "linux") stdParse none "pwndrop" ["install", "-h"]
        (World.init freshState)).2.st.installed = true
    ∧ (main (simSys "linux") stdParse none "pwndrop" ["-h", "remove"]
        (World.init freshState)).1 = Outcome.exit 1
    ∧ (main (simSys "linux") stdParse none "pwndrop" ["-h", "remove"]
        (World.init freshState)).2.trace = [Call.daemonRemove]
    ∧ (main (simSys "linux") stdParse none "pwndrop" ["-h"]
        (World.init freshState)).1 = Outcome.help
    ∧ (main (simSys "linux") stdParse none "pwndrop" ["-h"]
        (World.init freshState)).2.trace = [] := by
  refine ⟨rfl, by decide, by decide, by decide, by decide, by decide, by decide, by decide⟩

end ServiceClaims

end Pwndrip
